import Mathlib

/-!
Verification of the wardrobe-management client (`fashhit`).

The definitions below are a shallow embedding of the code in
`frontend/src/components/VirtualCloset.jsx` (the `loadItems`,
`handleFiles` and `handleDeleteItem` handlers) and of `handleRecommend`
in `frontend/src/components/OutfitRecommendation.jsx`.

Modelling conventions:
* `localStorage.getItem('wardrobe_items')` together with `JSON.parse` is
  modelled by `StoredWardrobe`: the key may be absent, present but
  unparseable (`JSON.parse` throws), or present with a parsed item list.
* Network and browser effects are data: `uploadToCloudinary` outcomes are
  inputs (`UploadFile.result`, `none` = the call threw), `alert` calls
  accumulate in an `alerts` list, and issued backend requests accumulate
  in a `requests` list (this revision of the closet issues none).
* `Date.now()` is modelled by the constant `now` for one batch, and
  `new Date().toISOString()` by the constant `nowIso`.
* The `await` points of the sequential upload loop are recorded in an
  event trace (`UploadEvent`) and every intermediate value of the
  `uploadProgress` state is recorded in `progressLog`, so that temporal
  claims about the batch can be stated over the run.
-/

/-- A wardrobe item exactly as built by `handleFiles` in
`VirtualCloset.jsx` (the object literal at lines 78-88). Note the record
has no owning-user field. -/
structure Item where
  id : Nat
  image_url : String
  cloudinary_public_id : String
  category : String
  width : Nat
  height : Nat
  format : String
  file_name : String
  created_at : String
deriving DecidableEq, Repr

/-- Result of a successful `uploadToCloudinary` call. -/
structure CloudinaryResult where
  url : String
  publicId : String
  width : Nat
  height : Nat
  format : String
deriving DecidableEq, Repr

/-- One file of an upload batch together with the outcome of its
`uploadToCloudinary` call (`none` models the call throwing). -/
structure UploadFile where
  name : String
  result : Option CloudinaryResult
deriving DecidableEq, Repr

/-- One entry of the `uploadProgress` state: a file name and a status
string (`'uploading'` or `'completed'` in this revision). -/
structure Progress where
  name : String
  status : String
deriving DecidableEq, Repr

/-- The `wardrobe_items` key of `localStorage`: absent, present but not
parseable by `JSON.parse` (which then throws), or a parsed item list. -/
inductive StoredWardrobe where
  | absent
  | corrupt
  | items (l : List Item)
deriving DecidableEq, Repr

/-- ASCII lowercasing of one character, as `String.prototype.toLowerCase`
acts on the tab names `'Tops'`, `'Bottoms'`, `'Shoes'`. -/
def lowerChar (c : Char) : Char :=
  if 'A' ≤ c ∧ c ≤ 'Z' then Char.ofNat (c.toNat + 32) else c

/-- `selectedTab.toLowerCase()`. -/
def toLowerCase (s : String) : String := String.mk (s.data.map lowerChar)

/-- The expression `storedItems ? JSON.parse(storedItems) : []`:
an absent key yields `[]`, a corrupt value throws (`none`), otherwise the
parsed list is returned. -/
def parseStored : StoredWardrobe → Option (List Item)
  | .absent => some []
  | .corrupt => none
  | .items l => some l

/-- The component state of `VirtualCloset` touched by the handlers,
plus the accumulated `alert` messages. -/
structure ClosetState where
  store : StoredWardrobe
  uploadedItems : List Item
  uploading : Bool
  uploadProgress : List Progress
  alerts : List String
deriving DecidableEq, Repr

/-- `loadItems` (VirtualCloset.jsx lines 21-34): read the stored items,
filter them by the selected tab's lowercased name and replace the state;
if the key is absent `setUploadedItems` is never called, and if parsing
throws the `catch` only logs, so in both cases the previous list is kept. -/
def loadItems (store : StoredWardrobe) (selectedTab : String) (current : List Item) : List Item :=
  match store with
  | .absent => current
  | .corrupt => current
  | .items allItems => allItems.filter (fun item => item.category == toLowerCase selectedTab)

/-- Result of `handleDeleteItem`: the new stored list, the new in-memory
list, the backend requests issued (none in this revision: the handler
only logs the Cloudinary public id) and the alerts shown. -/
structure DeleteResult where
  store : StoredWardrobe
  uploadedItems : List Item
  requests : List String
  alerts : List String
deriving DecidableEq, Repr

/-- `handleDeleteItem` (VirtualCloset.jsx lines 117-138). `answer` is the
user's reply to the `confirm` dialog; `false` returns immediately. On
confirmation the stored list (when present) and the in-memory list are
filtered by `item.id !== itemId`; a parse failure is caught before any
mutation and alerts failure. No network request is issued anywhere. -/
def handleDeleteItem (answer : Bool) (itemId : Nat) (_publicId : String)
    (store : StoredWardrobe) (items : List Item) : DeleteResult :=
  if answer = false then
    { store := store, uploadedItems := items, requests := [], alerts := [] }
  else
    match store with
    | .corrupt =>
      { store := .corrupt, uploadedItems := items, requests := [],
        alerts := ["Failed to delete item"] }
    | .absent =>
      { store := .absent,
        uploadedItems := items.filter (fun item => !(item.id == itemId)),
        requests := [],
        alerts := ["Item deleted successfully! ✅"] }
    | .items allItems =>
      { store := .items (allItems.filter (fun item => !(item.id == itemId))),
        uploadedItems := items.filter (fun item => !(item.id == itemId)),
        requests := [],
        alerts := ["Item deleted successfully! ✅"] }

/-- Events of the upload loop: the start of a file's
`uploadToCloudinary` call and its resolution (`success` = it returned
rather than threw). -/
inductive UploadEvent where
  | uploadStart (name : String) (idx : Nat)
  | uploadEnd (name : String) (idx : Nat) (success : Bool)
deriving DecidableEq, Repr

/-- Result of running the `for` loop of `handleFiles`: the state after
the loop, whether it finished without throwing, the upload event trace,
and every intermediate value taken by `uploadProgress`. -/
structure BatchResult where
  state : ClosetState
  ok : Bool
  trace : List UploadEvent
  progressLog : List (List Progress)
deriving Repr

/-- The `for` loop of `handleFiles` (VirtualCloset.jsx lines 67-105),
started at index `i`. Each iteration appends an `'uploading'` progress
entry, awaits the upload (a throw aborts the loop), builds the new item,
prepends it to the parsed stored list (a parse throw aborts the loop),
marks the file's progress entries `'completed'` and prepends the item to
the in-memory list. -/
def runBatch (now : Nat) (nowIso tab : String) : Nat → List UploadFile → ClosetState → BatchResult
  | _, [], s => { state := s, ok := true, trace := [], progressLog := [] }
  | i, f :: rest, s =>
    let p1 := s.uploadProgress ++ [{ name := f.name, status := "uploading" }]
    let s1 := { s with uploadProgress := p1 }
    match f.result with
    | none =>
      { state := s1, ok := false,
        trace := [.uploadStart f.name i, .uploadEnd f.name i false],
        progressLog := [p1] }
    | some r =>
      match parseStored s1.store with
      | none =>
        { state := s1, ok := false,
          trace := [.uploadStart f.name i, .uploadEnd f.name i true],
          progressLog := [p1] }
      | some allItems =>
        let newItem : Item :=
          { id := now + i, image_url := r.url, cloudinary_public_id := r.publicId,
            category := toLowerCase tab, width := r.width, height := r.height,
            format := r.format, file_name := f.name, created_at := nowIso }
        let p2 := p1.map (fun p => if p.name == f.name then { p with status := "completed" } else p)
        let s2 := { s1 with store := StoredWardrobe.items (newItem :: allItems),
                            uploadProgress := p2,
                            uploadedItems := newItem :: s1.uploadedItems }
        let res := runBatch now nowIso tab (i + 1) rest s2
        { state := res.state, ok := res.ok,
          trace := .uploadStart f.name i :: .uploadEnd f.name i true :: res.trace,
          progressLog := p1 :: p2 :: res.progressLog }

/-- Alert shown by the batch `catch` block. -/
def uploadFailMsg : String :=
  "Failed to upload images. Please check your Cloudinary configuration in .env file."

/-- Alert shown after the loop completes without throwing. -/
def uploadOkMsg : String := "Images uploaded successfully to Cloudinary! ✅"

/-- `handleFiles` (VirtualCloset.jsx lines 62-115): set `uploading`, run
the loop, alert success or failure, then in `finally` clear `uploading`
and reset `uploadProgress` to `[]`. -/
def handleFiles (now : Nat) (nowIso tab : String) (files : List UploadFile)
    (s : ClosetState) : ClosetState :=
  let res := runBatch now nowIso tab 0 files { s with uploading := true }
  { res.state with
      alerts := res.state.alerts ++ [if res.ok then uploadOkMsg else uploadFailMsg],
      uploading := false,
      uploadProgress := [] }

/-- Every value taken by `uploadProgress` over one `handleFiles` call:
its value at entry, each intermediate value during the loop, and the
final reset to `[]`. -/
def fullProgressLog (now : Nat) (nowIso tab : String) (files : List UploadFile)
    (s : ClosetState) : List (List Progress) :=
  s.uploadProgress ::
    (runBatch now nowIso tab 0 files { s with uploading := true }).progressLog ++ [[]]

/-- The number of files of a batch whose individual `uploadToCloudinary`
call succeeded. The loop is strictly sequential and aborts at the first
throw, so the calls that succeed are exactly the maximal prefix of files
with a successful result. -/
def succeededCalls (files : List UploadFile) : Nat :=
  (files.takeWhile (fun f => f.result.isSome)).length

/-- C10: item deletion is gated on the `confirm` dialog; when the user
declines, `handleDeleteItem` returns immediately and leaves the stored
list and the in-memory list completely unchanged, issuing no request and
no alert. -/
theorem c10_decline_is_noop (itemId : Nat) (publicId : String)
    (store : StoredWardrobe) (items : List Item) :
    handleDeleteItem false itemId publicId store items
      = { store := store, uploadedItems := items, requests := [], alerts := [] } := rfl

/-- C4 counterexample: when loading throws (unparseable stored value),
the in-memory list does not end up empty — it still holds the prior
view's item, refuting the claim that the list falls back to `[]`. -/
theorem c4_counterexample :
    loadItems .corrupt "Tops"
        [{ id := 7, image_url := "u", cloudinary_public_id := "p", category := "bottoms",
           width := 1, height := 1, format := "jpg", file_name := "a.jpg", created_at := "t" }]
      = [{ id := 7, image_url := "u", cloudinary_public_id := "p", category := "bottoms",
           width := 1, height := 1, format := "jpg", file_name := "a.jpg", created_at := "t" }]
    ∧ loadItems .corrupt "Tops"
        [{ id := 7, image_url := "u", cloudinary_public_id := "p", category := "bottoms",
           width := 1, height := 1, format := "jpg", file_name := "a.jpg", created_at := "t" }]
      ≠ ([] : List Item) := by
  exact ⟨rfl, by decide⟩

/-- C4 amended: if the category load fails (an exception while reading
or parsing the stored items), `loadItems` leaves the in-memory list
unchanged — the prior view's items are retained, not cleared. -/
theorem c4_amended_retains_prior (selectedTab : String) (current : List Item) :
    loadItems .corrupt selectedTab current = current := rfl

/-- C1: the record persisted for an upload carries no owning-user
identifier — uploading `shirt.jpg` under the Tops tab stores exactly the
nine fields below (id, urls, category, dimensions, file name, timestamp),
none of which is a user id, and `loadItems` takes no user identifier at
all. This contradicts the spec invariant (and the repository's own
user-isolation fix notes) that every wardrobe read and write must carry
the owning user's identifier. -/
theorem c1_upload_record_has_no_user_scope :
    (handleFiles 100 "2025-01-01T00:00:00.000Z" "Tops"
        [{ name := "shirt.jpg",
           result := some { url := "https://cdn.example/x.png", publicId := "pub1",
                            width := 10, height := 20, format := "png" } }]
        { store := .absent, uploadedItems := [], uploading := false,
          uploadProgress := [], alerts := [] }).store
      = .items [{ id := 100, image_url := "https://cdn.example/x.png",
                  cloudinary_public_id := "pub1", category := "tops",
                  width := 10, height := 20, format := "png",
                  file_name := "shirt.jpg", created_at := "2025-01-01T00:00:00.000Z" }] := by
  decide

/-- C3 counterexample: deleting a confirmed item issues no backend
request at all (`requests = []`) while the local mutation is applied
anyway, refuting the claim that a delete request is issued and that the
mutation is applied only after server confirmation. -/
theorem c3_counterexample :
    (handleDeleteItem true 1 "pub1"
        (.items [{ id := 1, image_url := "u", cloudinary_public_id := "pub1",
                   category := "tops", width := 1, height := 1, format := "jpg",
                   file_name := "a.jpg", created_at := "t" }])
        [{ id := 1, image_url := "u", cloudinary_public_id := "pub1",
           category := "tops", width := 1, height := 1, format := "jpg",
           file_name := "a.jpg", created_at := "t" }]).requests = ([] : List String)
    ∧ (handleDeleteItem true 1 "pub1"
        (.items [{ id := 1, image_url := "u", cloudinary_public_id := "pub1",
                   category := "tops", width := 1, height := 1, format := "jpg",
                   file_name := "a.jpg", created_at := "t" }])
        [{ id := 1, image_url := "u", cloudinary_public_id := "pub1",
           category := "tops", width := 1, height := 1, format := "jpg",
           file_name := "a.jpg", created_at := "t" }]).uploadedItems = ([] : List Item) := by
  exact ⟨rfl, by decide⟩
/-- Auxiliary: length accounting for filtering out the entries matching
an id. -/
theorem filter_ne_id_length (itemId : Nat) :
    ∀ l : List Item,
      (l.filter (fun item => !(item.id == itemId))).length
        + l.countP (fun item => item.id == itemId) = l.length := by
  intro l
  induction l with
  | nil => simp
  | cons x xs ih =>
    cases h : (x.id == itemId) <;>
      simp [List.filter_cons, List.countP_cons, h] <;> omega

/-- C3 amended: confirmed deletion is applied locally with no backend
request: every entry whose id equals the given identifier is removed from
the stored list and from local state (exactly one entry when exactly one
matches), a success alert is shown; if reading the stored list throws,
local state is left unchanged and a failure alert is surfaced. -/
theorem c3_amended_local_delete (itemId : Nat) (publicId : String)
    (allItems prev : List Item) :
    (handleDeleteItem true itemId publicId (.items allItems) prev).requests = []
    ∧ (handleDeleteItem true itemId publicId (.items allItems) prev).store
        = .items (allItems.filter (fun item => !(item.id == itemId)))
    ∧ (handleDeleteItem true itemId publicId (.items allItems) prev).uploadedItems
        = prev.filter (fun item => !(item.id == itemId))
    ∧ (handleDeleteItem true itemId publicId (.items allItems) prev).alerts
        = ["Item deleted successfully! ✅"]
    ∧ (allItems.countP (fun item => item.id == itemId) = 1 →
        (allItems.filter (fun item => !(item.id == itemId))).length + 1 = allItems.length)
    ∧ (handleDeleteItem true itemId publicId .corrupt prev).uploadedItems = prev
    ∧ (handleDeleteItem true itemId publicId .corrupt prev).store = .corrupt
    ∧ (handleDeleteItem true itemId publicId .corrupt prev).alerts = ["Failed to delete item"] := by
  refine ⟨rfl, rfl, rfl, rfl, ?_, rfl, rfl, rfl⟩
  intro hone
  have := filter_ne_id_length itemId allItems
  omega

/-- Sample wardrobe item used by concrete witnesses. -/
def itemA : Item :=
  { id := 1, image_url := "u", cloudinary_public_id := "pub1", category := "tops",
    width := 1, height := 1, format := "jpg", file_name := "a.jpg", created_at := "t" }

/-- Second sample wardrobe item used by concrete witnesses. -/
def itemB : Item :=
  { id := 2, image_url := "v", cloudinary_public_id := "pub2", category := "tops",
    width := 1, height := 1, format := "jpg", file_name := "b.jpg", created_at := "t" }

/-- Sample successful Cloudinary response used by concrete witnesses. -/
def crSample : CloudinaryResult :=
  { url := "https://cdn.example/x.png", publicId := "pub1", width := 10, height := 20,
    format := "png" }

/-- Initial closet state used by concrete witnesses. -/
def s0 : ClosetState :=
  { store := .absent, uploadedItems := [], uploading := false, uploadProgress := [],
    alerts := [] }

/-- C3 amended witness: deleting id 1 from the two-item store removes
exactly one entry and issues no request. -/
theorem c3_amended_local_delete_witness :
    (handleDeleteItem true 1 "pub1" (.items [itemA, itemB]) []).requests = []
    ∧ ([itemA, itemB].filter (fun item => !(item.id == 1))).length + 1
        = [itemA, itemB].length := by
  refine ⟨(c3_amended_local_delete 1 "pub1" [itemA, itemB] []).1, ?_⟩
  exact (c3_amended_local_delete 1 "pub1" [itemA, itemB] []).2.2.2.2.1 (by decide)

/-- Auxiliary: the loop started in a non-corrupt store grows the
in-memory list by exactly the number of successful upload calls (the
maximal successful prefix of the batch). -/
theorem runBatch_uploadedItems_length (now : Nat) (nowIso tab : String) :
    ∀ (files : List UploadFile) (i : Nat) (s : ClosetState), s.store ≠ .corrupt →
      (runBatch now nowIso tab i files s).state.uploadedItems.length
        = s.uploadedItems.length + succeededCalls files := by
  intro files
  induction files with
  | nil =>
    intro i s _
    simp [runBatch, succeededCalls]
  | cons f rest ih =>
    intro i s hs
    cases hf : f.result with
    | none =>
      simp [runBatch, hf, succeededCalls, List.takeWhile]
    | some r =>
      cases hstore : s.store with
      | corrupt => exact absurd hstore hs
      | absent =>
        simp [runBatch, hf, hstore, parseStored, succeededCalls, List.takeWhile, ih]
        omega
      | items l =>
        simp [runBatch, hf, hstore, parseStored, succeededCalls, List.takeWhile, ih]
        omega

/-- C2: for every upload batch, the visible in-memory item collection
grows by exactly the number of files whose individual upload call
succeeded — no more, no fewer — provided the stored wardrobe value is
readable (the app itself only ever stores well-formed JSON). -/
theorem c2_batch_growth (now : Nat) (nowIso tab : String) (files : List UploadFile)
    (s : ClosetState) (h : s.store ≠ .corrupt) :
    (handleFiles now nowIso tab files s).uploadedItems.length
      = s.uploadedItems.length + succeededCalls files := by
  have := runBatch_uploadedItems_length now nowIso tab files 0
    { s with uploading := true } (by simpa using h)
  simpa [handleFiles] using this

/-- C2 witness: a batch of one successful and one failing file grows the
collection by exactly one. -/
theorem c2_batch_growth_witness :
    (handleFiles 5 "t" "Tops"
        [{ name := "a.jpg", result := some crSample }, { name := "b.jpg", result := none }]
        s0).uploadedItems.length
      = s0.uploadedItems.length
        + succeededCalls
            [{ name := "a.jpg", result := some crSample }, { name := "b.jpg", result := none }] :=
  c2_batch_growth 5 "t" "Tops"
    [{ name := "a.jpg", result := some crSample }, { name := "b.jpg", result := none }]
    s0 (by decide)

/-- C7: uploading a file while the `'Tops'` tab is selected yields, on a
successful upload call, a new item whose `category` is the lowercase
string `"tops"`, prepended to the in-memory item collection. -/
theorem c7_tops_upload_prepended (now : Nat) (nowIso name : String) (cr : CloudinaryResult)
    (s : ClosetState) (h : s.store ≠ .corrupt) :
    (handleFiles now nowIso "Tops" [{ name := name, result := some cr }] s).uploadedItems
      = { id := now, image_url := cr.url, cloudinary_public_id := cr.publicId,
          category := "tops", width := cr.width, height := cr.height, format := cr.format,
          file_name := name, created_at := nowIso } :: s.uploadedItems := by
  have htl : toLowerCase "Tops" = "tops" := by decide
  cases hstore : s.store with
  | corrupt => exact absurd hstore h
  | absent => simp [handleFiles, runBatch, parseStored, hstore, htl]
  | items l => simp [handleFiles, runBatch, parseStored, hstore, htl]

/-- C7 witness: a concrete upload of `shirt.jpg` under Tops. -/
theorem c7_tops_upload_prepended_witness :
    (handleFiles 100 "2025-01-01T00:00:00.000Z" "Tops"
        [{ name := "shirt.jpg", result := some crSample }] s0).uploadedItems
      = { id := 100, image_url := crSample.url, cloudinary_public_id := crSample.publicId,
          category := "tops", width := crSample.width, height := crSample.height,
          format := crSample.format, file_name := "shirt.jpg",
          created_at := "2025-01-01T00:00:00.000Z" } :: s0.uploadedItems :=
  c7_tops_upload_prepended 100 "2025-01-01T00:00:00.000Z" "shirt.jpg" crSample s0 (by decide)

/-- Decides whether an event trace is strictly serialized from index
`i`: it is an alternation of `uploadStart`/`uploadEnd` pairs for
consecutive indices `i, i+1, …` — every upload resolves before the next
one begins, so no two uploads are ever in flight together. -/
def serializedFrom : Nat → List UploadEvent → Bool
  | _, [] => true
  | i, .uploadStart _ j :: .uploadEnd _ k _ :: rest =>
    i == j && i == k && serializedFrom (i + 1) rest
  | _, _ => false

/-- Number of progress entries currently in the `'uploading'` status. -/
def countUploading (p : List Progress) : Nat :=
  p.countP (fun q => q.status == "uploading")

/-- Auxiliary: the trace of the upload loop is strictly serialized. -/
theorem runBatch_trace_serialized (now : Nat) (nowIso tab : String) :
    ∀ (files : List UploadFile) (i : Nat) (s : ClosetState),
      serializedFrom i (runBatch now nowIso tab i files s).trace = true := by
  intro files
  induction files with
  | nil => intro i s; simp [runBatch, serializedFrom]
  | cons f rest ih =>
    intro i s
    cases hf : f.result with
    | none => simp [runBatch, hf, serializedFrom]
    | some r =>
      cases hstore : s.store with
      | corrupt => simp [runBatch, hf, hstore, parseStored, serializedFrom]
      | absent => simp [runBatch, hf, hstore, parseStored, serializedFrom, ih]
      | items l => simp [runBatch, hf, hstore, parseStored, serializedFrom, ih]

/-- Sample successful upload file used by concrete witnesses. -/
def fileOk : UploadFile := { name := "a.jpg", result := some crSample }

/-- Sample failing upload file used by concrete witnesses. -/
def fileBad : UploadFile := { name := "b.jpg", result := none }

/-- Auxiliary: marking a file's entries `'completed'` right after its
`'uploading'` entry was appended returns the progress list to zero
in-flight entries, provided none were in flight before. -/
theorem countUploading_complete_map (p : List Progress) (n : String)
    (h : countUploading p = 0) :
    countUploading ((p ++ [({ name := n, status := "uploading" } : Progress)]).map
      (fun q => if q.name == n then { q with status := "completed" } else q)) = 0 := by
  simp only [countUploading] at h ⊢
  rw [List.countP_eq_zero] at h ⊢
  intro q hq
  obtain ⟨q', hq', rfl⟩ := List.mem_map.mp hq
  rcases List.mem_append.mp hq' with h1 | h2
  · by_cases hn : (q'.name == n) = true
    · simp [hn]
    · simp only [Bool.not_eq_true] at hn
      simp only [hn, Bool.false_eq_true, if_false]
      exact h q' h1
  · simp only [List.mem_singleton] at h2
    subst h2
    simp

/-- Auxiliary: during the upload loop, at most one progress entry is in
the `'uploading'` status at any time, provided none was at loop entry. -/
theorem runBatch_progress_le_one (now : Nat) (nowIso tab : String) :
    ∀ (files : List UploadFile) (i : Nat) (s : ClosetState),
      countUploading s.uploadProgress = 0 →
      ∀ p ∈ (runBatch now nowIso tab i files s).progressLog, countUploading p ≤ 1 := by
  intro files
  induction files with
  | nil =>
    intro i s _ p hp
    simp [runBatch] at hp
  | cons f rest ih =>
    intro i s h p hp
    cases hf : f.result with
    | none =>
      simp only [runBatch, hf, List.mem_singleton] at hp
      subst hp
      simp only [countUploading] at h ⊢
      simp [List.countP_append, List.countP_cons, h]
    | some r =>
      cases hstore : s.store with
      | corrupt =>
        simp only [runBatch, hf, hstore, parseStored, List.mem_singleton] at hp
        subst hp
        simp only [countUploading] at h ⊢
        simp [List.countP_append, List.countP_cons, h]
      | absent =>
        simp only [runBatch, hf, hstore, parseStored, List.mem_cons] at hp
        rcases hp with hp | hp | hp
        · subst hp
          simp only [countUploading] at h ⊢
          simp [List.countP_append, List.countP_cons, h]
        · subst hp
          have hc := countUploading_complete_map s.uploadProgress f.name h
          simp only [countUploading] at hc ⊢
          simp only [hc]
          omega
        · exact ih (i + 1) _
            (by simpa using countUploading_complete_map s.uploadProgress f.name h) p hp
      | items l =>
        simp only [runBatch, hf, hstore, parseStored, List.mem_cons] at hp
        rcases hp with hp | hp | hp
        · subst hp
          simp only [countUploading] at h ⊢
          simp [List.countP_append, List.countP_cons, h]
        · subst hp
          have hc := countUploading_complete_map s.uploadProgress f.name h
          simp only [countUploading] at hc ⊢
          simp only [hc]
          omega
        · exact ih (i + 1) _
            (by simpa using countUploading_complete_map s.uploadProgress f.name h) p hp

/-- C6: within one upload batch the uploads are strictly serialized in
file order — the trace of the loop is an alternation of start/resolve
pairs for consecutive indices (file `i+1` does not start before file `i`
resolved) — and at no time is more than one progress entry in the
`'uploading'` status. -/
theorem c6_uploads_serialized (now : Nat) (nowIso tab : String) (files : List UploadFile)
    (s : ClosetState) (h : s.uploadProgress = []) :
    serializedFrom 0 (runBatch now nowIso tab 0 files { s with uploading := true }).trace = true
    ∧ ∀ p ∈ fullProgressLog now nowIso tab files s, countUploading p ≤ 1 := by
  refine ⟨runBatch_trace_serialized now nowIso tab files 0 _, ?_⟩
  intro p hp
  simp only [fullProgressLog, List.mem_cons, List.mem_append, List.mem_singleton,
    or_assoc] at hp
  rcases hp with hp | hp | hp
  · subst hp
    simp [h, countUploading]
  · exact runBatch_progress_le_one now nowIso tab files 0 { s with uploading := true }
      (by simp [h, countUploading]) p hp
  · rcases hp with hp | hp
    · subst hp
      simp [countUploading]
    · simp at hp

/-- C6 witness: a concrete two-file batch. -/
theorem c6_uploads_serialized_witness :
    serializedFrom 0
        (runBatch 5 "t" "Tops" 0 [fileOk, fileBad] { s0 with uploading := true }).trace = true
    ∧ ∀ p ∈ fullProgressLog 5 "t" "Tops" [fileOk, fileBad] s0, countUploading p ≤ 1 :=
  c6_uploads_serialized 5 "t" "Tops" [fileOk, fileBad] s0 rfl

/-- C5 counterexample: in a batch whose first file's upload throws, the
second file's upload never begins (the trace holds no event for it and
the collection stays empty even though the second file would have
succeeded), refuting the claim that one file's failure does not abort the
remaining files; only the user-visible error alert half of the claim
holds. -/
theorem c5_counterexample :
    (runBatch 5 "t" "Tops" 0 [fileBad, fileOk] { s0 with uploading := true }).trace
      = [.uploadStart "b.jpg" 0, .uploadEnd "b.jpg" 0 false]
    ∧ (handleFiles 5 "t" "Tops" [fileBad, fileOk] s0).uploadedItems = []
    ∧ (handleFiles 5 "t" "Tops" [fileBad, fileOk] s0).alerts = [uploadFailMsg] := by
  exact ⟨by decide, by decide, by decide⟩

/-- Auxiliary: `runBatch` never touches the `alerts` state. -/
theorem runBatch_alerts (now : Nat) (nowIso tab : String) :
    ∀ (files : List UploadFile) (i : Nat) (s : ClosetState),
      (runBatch now nowIso tab i files s).state.alerts = s.alerts := by
  intro files
  induction files with
  | nil => intro i s; simp [runBatch]
  | cons f rest ih =>
    intro i s
    cases hf : f.result with
    | none => simp [runBatch, hf]
    | some r =>
      cases hp : parseStored s.store with
      | none => simp [runBatch, hf, hp]
      | some l => simp [runBatch, hf, hp, ih]

/-- Auxiliary: once a file whose upload throws is reached, the files
after it are irrelevant — the loop's result ignores them. -/
theorem runBatch_abort (now : Nat) (nowIso tab : String) :
    ∀ (pre : List UploadFile) (i : Nat) (s : ClosetState) (f : UploadFile)
      (rest : List UploadFile),
      (∀ g ∈ pre, g.result.isSome) → f.result = none →
      runBatch now nowIso tab i (pre ++ f :: rest) s
        = runBatch now nowIso tab i (pre ++ [f]) s := by
  intro pre
  induction pre with
  | nil =>
    intro i s f rest _ hf
    simp [runBatch, hf]
  | cons g pre' ih =>
    intro i s f rest hpre hf
    cases hg : g.result with
    | none =>
      have := hpre g (List.mem_cons_self g pre')
      simp [hg] at this
    | some r =>
      cases hp : parseStored s.store with
      | none => simp [runBatch, hg, hp]
      | some l =>
        simp only [List.cons_append, runBatch, hg, hp, List.append_eq]
        rw [ih (i + 1) _ f rest (fun g' hg' => hpre g' (List.mem_cons_of_mem g hg')) hf]

/-- Auxiliary: a batch ending in a throwing file finishes with `ok =
false`, whatever the store contents. -/
theorem runBatch_fail_not_ok (now : Nat) (nowIso tab : String) :
    ∀ (pre : List UploadFile) (i : Nat) (s : ClosetState) (f : UploadFile),
      (∀ g ∈ pre, g.result.isSome) → f.result = none →
      (runBatch now nowIso tab i (pre ++ [f]) s).ok = false := by
  intro pre
  induction pre with
  | nil =>
    intro i s f _ hf
    simp [runBatch, hf]
  | cons g pre' ih =>
    intro i s f hpre hf
    cases hg : g.result with
    | none =>
      have := hpre g (List.mem_cons_self g pre')
      simp [hg] at this
    | some r =>
      cases hp : parseStored s.store with
      | none => simp [runBatch, hg, hp]
      | some l =>
        simp only [List.cons_append, runBatch, hg, hp, List.append_eq]
        exact ih (i + 1) _ f (fun g' hg' => hpre g' (List.mem_cons_of_mem g hg')) hf

/-- C5 amended: failure of one file's upload aborts the processing of
the remaining files of the batch (the handler's result is identical
whether or not further files follow the failing one), and it surfaces
exactly the user-visible failure alert. -/
theorem c5_amended_failure_aborts_batch (now : Nat) (nowIso tab : String)
    (pre : List UploadFile) (f : UploadFile) (rest : List UploadFile) (s : ClosetState)
    (hpre : ∀ g ∈ pre, g.result.isSome) (hf : f.result = none) :
    handleFiles now nowIso tab (pre ++ f :: rest) s = handleFiles now nowIso tab (pre ++ [f]) s
    ∧ (handleFiles now nowIso tab (pre ++ f :: rest) s).alerts
        = s.alerts ++ [uploadFailMsg] := by
  have habort := runBatch_abort now nowIso tab pre 0 { s with uploading := true } f rest hpre hf
  constructor
  · simp [handleFiles, habort]
  · simp [handleFiles, habort,
      runBatch_fail_not_ok now nowIso tab pre 0 { s with uploading := true } f hpre hf,
      runBatch_alerts now nowIso tab (pre ++ [f]) 0 { s with uploading := true }]

/-- C5 amended witness: a concrete batch where the middle file fails. -/
theorem c5_amended_failure_aborts_batch_witness :
    handleFiles 5 "t" "Tops" ([fileOk] ++ fileBad :: [fileOk]) s0
        = handleFiles 5 "t" "Tops" ([fileOk] ++ [fileBad]) s0
    ∧ (handleFiles 5 "t" "Tops" ([fileOk] ++ fileBad :: [fileOk]) s0).alerts
        = s0.alerts ++ [uploadFailMsg] :=
  c5_amended_failure_aborts_batch 5 "t" "Tops" [fileOk] fileBad [fileOk] s0
    (by decide) rfl

/-- Decides that every status string in a progress snapshot is one the
upload loop actually writes (`'uploading'` or `'completed'`), a subset of
the statuses the specification lists. -/
def snapStatusesOK (p : List Progress) : Bool :=
  p.all (fun q => q.status == "uploading" || q.status == "completed")

/-- Position of a status in the specified lifecycle
`pending → uploading → completed | failed`. -/
def rank (st : String) : Nat :=
  if st == "pending" then 0 else if st == "uploading" then 1 else 2

/-- Decides that no progress entry regresses between two consecutive
snapshots: entries at common positions never move backwards in the
lifecycle order. -/
def noRegressB (a b : List Progress) : Bool :=
  (a.zip b).all (fun qp => Nat.ble (rank qp.1.status) (rank qp.2.status))

/-- Decides `noRegressB` between every pair of adjacent snapshots. -/
def chainNoRegress : List (List Progress) → Bool
  | [] => true
  | [_] => true
  | a :: b :: rest => noRegressB a b && chainNoRegress (b :: rest)

/-- Auxiliary: ranks never exceed the terminal rank. -/
theorem rank_le_two (st : String) : rank st ≤ 2 := by
  unfold rank
  split
  · omega
  · split
    · omega
    · omega

/-- Auxiliary: appending entries at the end never regresses the
existing positions. -/
theorem noRegressB_self_append (p l : List Progress) : noRegressB p (p ++ l) = true := by
  induction p with
  | nil => simp [noRegressB]
  | cons x xs ih =>
    simp only [noRegressB, List.cons_append, List.zip_cons_cons, List.all_cons,
      Bool.and_eq_true] at ih ⊢
    exact ⟨by simp [Nat.ble_eq], ih⟩

/-- Auxiliary: marking a file's entries `'completed'` only moves
statuses forward in the lifecycle. -/
theorem noRegressB_complete_map (p1 : List Progress) (n : String) :
    noRegressB p1 (p1.map (fun q => if q.name == n then { q with status := "completed" } else q))
      = true := by
  induction p1 with
  | nil => simp [noRegressB]
  | cons x xs ih =>
    simp only [noRegressB, List.map_cons, List.zip_cons_cons, List.all_cons,
      Bool.and_eq_true] at ih ⊢
    refine ⟨?_, ih⟩
    by_cases hx : (x.name == n) = true
    · have h2 : rank "completed" = 2 := by decide
      simp [hx, Nat.ble_eq, h2, rank_le_two]
    · simp only [Bool.not_eq_true] at hx
      simp [hx, Nat.ble_eq]

/-- Auxiliary: pushing a fresh `'uploading'` entry keeps all statuses
among the ones the loop writes. -/
theorem snapOK_append_uploading (p : List Progress) (n : String)
    (h : snapStatusesOK p = true) :
    snapStatusesOK (p ++ [({ name := n, status := "uploading" } : Progress)]) = true := by
  simp [snapStatusesOK, List.all_append] at h ⊢
  exact h

/-- Auxiliary: completing a file's entries keeps all statuses among the
ones the loop writes. -/
theorem snapOK_complete_map (p : List Progress) (n : String)
    (h : snapStatusesOK p = true) :
    snapStatusesOK (p.map (fun q => if q.name == n then { q with status := "completed" } else q))
      = true := by
  simp only [snapStatusesOK, List.all_eq_true] at h ⊢
  intro q hq
  obtain ⟨q', hq', rfl⟩ := List.mem_map.mp hq
  by_cases hx : (q'.name == n) = true
  · simp [hx]
  · simp only [Bool.not_eq_true] at hx
    simp only [hx, Bool.false_eq_true, if_false]
    exact h q' hq'

/-- Auxiliary: every snapshot taken by the upload loop holds only
`'uploading'` or `'completed'` statuses, provided the loop starts that
way. -/
theorem runBatch_progressLog_statuses (now : Nat) (nowIso tab : String) :
    ∀ (files : List UploadFile) (i : Nat) (s : ClosetState),
      snapStatusesOK s.uploadProgress = true →
      ∀ p ∈ (runBatch now nowIso tab i files s).progressLog, snapStatusesOK p = true := by
  intro files
  induction files with
  | nil =>
    intro i s _ p hp
    simp [runBatch] at hp
  | cons f rest ih =>
    intro i s h p hp
    cases hf : f.result with
    | none =>
      simp only [runBatch, hf, List.mem_singleton] at hp
      subst hp
      exact snapOK_append_uploading s.uploadProgress f.name h
    | some r =>
      cases hparse : parseStored s.store with
      | none =>
        simp only [runBatch, hf, hparse, List.mem_singleton] at hp
        subst hp
        exact snapOK_append_uploading s.uploadProgress f.name h
      | some l =>
        simp only [runBatch, hf, hparse, List.mem_cons] at hp
        rcases hp with hp | hp | hp
        · subst hp
          exact snapOK_append_uploading s.uploadProgress f.name h
        · subst hp
          exact snapOK_complete_map _ f.name (snapOK_append_uploading s.uploadProgress f.name h)
        · have hok : snapStatusesOK
              ((s.uploadProgress ++ [({ name := f.name, status := "uploading" } : Progress)]).map
                (fun q => if q.name == f.name then { q with status := "completed" } else q))
              = true :=
            snapOK_complete_map _ f.name (snapOK_append_uploading s.uploadProgress f.name h)
          exact ih (i + 1) _ (by simpa using hok) p hp

/-- Auxiliary: over one run of the upload loop, consecutive progress
snapshots never regress any entry's status (the head snapshot is the
progress value at loop entry). -/
theorem runBatch_progressLog_chain (now : Nat) (nowIso tab : String) :
    ∀ (files : List UploadFile) (i : Nat) (s : ClosetState) (p : List Progress),
      p = s.uploadProgress →
      chainNoRegress (p :: (runBatch now nowIso tab i files s).progressLog) = true := by
  intro files
  induction files with
  | nil =>
    intro i s p hp
    simp [runBatch, chainNoRegress]
  | cons f rest ih =>
    intro i s p hp
    subst hp
    cases hf : f.result with
    | none =>
      simp [runBatch, hf, chainNoRegress, noRegressB_self_append]
    | some r =>
      cases hparse : parseStored s.store with
      | none =>
        simp [runBatch, hf, hparse, chainNoRegress, noRegressB_self_append]
      | some l =>
        simp only [runBatch, hf, hparse, chainNoRegress, Bool.and_eq_true]
        refine ⟨noRegressB_self_append _ _, noRegressB_complete_map _ _, ?_⟩
        exact ih (i + 1) _ _ rfl

/-- Auxiliary: the final reset to the empty progress list regresses
nothing (there are no common positions). -/
theorem chainNoRegress_append_nil :
    ∀ l : List (List Progress), chainNoRegress l = true
      → chainNoRegress (l ++ [([] : List Progress)]) = true := by
  intro l
  induction l with
  | nil =>
    intro _
    simp [chainNoRegress]
  | cons a t ih =>
    cases t with
    | nil =>
      intro _
      simp [chainNoRegress, noRegressB]
    | cons b t' =>
      intro h
      simp only [chainNoRegress, Bool.and_eq_true] at h
      simp only [List.cons_append, chainNoRegress, Bool.and_eq_true]
      exact ⟨h.1, ih h.2⟩

/-- C8 counterexample: a successful one-file batch passes through
exactly the snapshots below — the entry is created directly in status
`'uploading'` and never holds status `'pending'` at any point (nor
`'failed'`), refuting the claimed `pending → uploading → …` lifecycle as
stated. -/
theorem c8_counterexample :
    fullProgressLog 5 "t" "Tops" [fileOk] s0
      = [[], [{ name := "a.jpg", status := "uploading" }],
         [{ name := "a.jpg", status := "completed" }], []]
    ∧ (fullProgressLog 5 "t" "Tops" [fileOk] s0).all
        (fun snap => snap.all (fun q => !(q.status == "pending"))) = true := by
  exact ⟨by decide, by decide⟩

/-- C8 amended: every status a progress entry ever holds is one of the
listed lifecycle statuses (in fact only `'uploading'` and `'completed'`
occur; entries are created directly in `'uploading'`, skipping
`'pending'`, and a failed file's entry simply keeps `'uploading'`), no
entry ever regresses in the lifecycle order across snapshots, and the
whole progress list is discarded (reset to `[]`) when the batch ends,
in success and in failure alike. -/
theorem c8_amended_progress_lifecycle (now : Nat) (nowIso tab : String)
    (files : List UploadFile) (s : ClosetState) (h : s.uploadProgress = []) :
    (fullProgressLog now nowIso tab files s).all snapStatusesOK = true
    ∧ chainNoRegress (fullProgressLog now nowIso tab files s) = true
    ∧ (handleFiles now nowIso tab files s).uploadProgress = [] := by
  refine ⟨?_, ?_, by simp [handleFiles]⟩
  · rw [List.all_eq_true]
    intro p hp
    simp only [fullProgressLog, List.mem_cons, List.mem_append, List.mem_singleton,
      or_assoc] at hp
    rcases hp with hp | hp | hp
    · subst hp
      simp [h, snapStatusesOK]
    · exact runBatch_progressLog_statuses now nowIso tab files 0 { s with uploading := true }
        (by simp [h, snapStatusesOK]) p hp
    · rcases hp with hp | hp
      · subst hp
        simp [snapStatusesOK]
      · simp at hp
  · have hc := runBatch_progressLog_chain now nowIso tab files 0
      { s with uploading := true } _ rfl
    have := chainNoRegress_append_nil _ hc
    simpa [fullProgressLog, List.cons_append] using this

/-- C8 amended witness: a concrete batch with one success and one
failure. -/
theorem c8_amended_progress_lifecycle_witness :
    (fullProgressLog 5 "t" "Tops" [fileOk, fileBad] s0).all snapStatusesOK = true
    ∧ chainNoRegress (fullProgressLog 5 "t" "Tops" [fileOk, fileBad] s0) = true
    ∧ (handleFiles 5 "t" "Tops" [fileOk, fileBad] s0).uploadProgress = [] :=
  c8_amended_progress_lifecycle 5 "t" "Tops" [fileOk, fileBad] s0 rfl

/-- The WhiteSpace and LineTerminator code points removed by
`String.prototype.trim`. -/
def jsWhitespace (c : Char) : Bool :=
  c == ' ' || c == '\t' || c == '\n' || c == '\r' || c == '\x0B' || c == '\x0C' ||
  c == ' ' || c == '﻿' || c == ' ' ||
  (Nat.ble 0x2000 c.toNat && Nat.ble c.toNat 0x200A) ||
  c == ' ' || c == ' ' || c == ' ' || c == ' ' || c == '　'

/-- `scenario.trim()`: strip leading and trailing whitespace. -/
def jsTrim (s : String) : String :=
  String.mk (((s.data.dropWhile jsWhitespace).reverse.dropWhile jsWhitespace).reverse)

/-- A `POST /recommend-outfit` request body: `{ query, user_id }`. -/
structure RecRequest where
  query : String
  user_id : Option String
deriving DecidableEq, Repr

/-- The parsed JSON of the recommendation response together with
`response.ok`. The outfit and weather payloads are passthrough data of
arbitrary types. -/
structure RecResponse (O W : Type) where
  ok : Bool
  success : Bool
  error : Option String
  outfit : Option O
  shopping_tip : Option String
  weather : Option W
deriving DecidableEq, Repr

/-- The component state of `OutfitRecommendation` touched by
`handleRecommend`. -/
structure RecState (O W : Type) where
  hasOutfit : Bool
  loading : Bool
  error : Option String
  currentOutfit : Option O
  scenario : String
  shoppingTip : Option String
  weather : Option W
deriving DecidableEq, Repr

/-- JavaScript `a || b` on the optional error string: an absent or empty
message falls back to the default. -/
def jsOr (o : Option String) (d : String) : String :=
  match o with
  | some m => if m == "" then d else m
  | none => d

/-- `handleRecommend` (OutfitRecommendation.jsx lines 27-52). The guard
`if (!scenario.trim()) return` makes a blank scenario an immediate
return. Otherwise one request is issued; `resp` models the awaited
`fetch`/`json` outcome (`Except.error m` = the call threw with message
`m`). On a non-ok or non-success response the thrown message is
`result.error || 'Failed to generate'`; the `catch` stores it in `error`
and `finally` clears `loading`. -/
def handleRecommend {O W : Type} (user_id : Option String)
    (resp : Except String (RecResponse O W)) (s : RecState O W) :
    RecState O W × List RecRequest :=
  if jsTrim s.scenario == "" then (s, [])
  else
    let requests : List RecRequest := [{ query := s.scenario, user_id := user_id }]
    match resp with
    | .error m =>
      ({ s with loading := false, error := some m }, requests)
    | .ok r =>
      if !r.ok || !r.success then
        ({ s with
            loading := false,
            error := some (jsOr r.error "Failed to generate") }, requests)
      else
        ({ s with
            loading := false, error := none,
            currentOutfit := r.outfit, shoppingTip := r.shopping_tip,
            weather := r.weather, hasOutfit := true }, requests)

/-- Auxiliary: dropping whitespace from an all-whitespace list leaves
nothing. -/
theorem dropWhile_jsWhitespace_nil {l : List Char} (h : l.all jsWhitespace = true) :
    l.dropWhile jsWhitespace = [] := by
  induction l with
  | nil => simp
  | cons c cs ih =>
    simp only [List.all_cons, Bool.and_eq_true] at h
    simp [List.dropWhile, h.1, ih h.2]

/-- Auxiliary: the trim of an empty or all-whitespace string is empty. -/
theorem jsTrim_blank (str : String) (h : str = "" ∨ str.data.all jsWhitespace = true) :
    jsTrim str = "" := by
  rcases h with h | h
  · subst h
    rfl
  · have hd := dropWhile_jsWhitespace_nil (l := str.data) h
    simp [jsTrim, hd]

/-- C9: requesting an outfit recommendation with an empty or
whitespace-only scenario is a no-op — no network request is issued and
no component state (loading, error, current outfit, or any other field)
is changed. -/
theorem c9_blank_scenario_noop {O W : Type} (user_id : Option String)
    (resp : Except String (RecResponse O W)) (s : RecState O W)
    (h : s.scenario = "" ∨ s.scenario.data.all jsWhitespace = true) :
    handleRecommend user_id resp s = (s, []) := by
  have htrim : jsTrim s.scenario = "" := jsTrim_blank _ h
  simp [handleRecommend, htrim]

/-- C9 witness: a whitespace-only scenario with a would-fail network
call changes nothing. -/
theorem c9_blank_scenario_noop_witness :
    handleRecommend (O := Unit) (W := Unit) (some "U1") (Except.error "network down")
        { hasOutfit := false, loading := false, error := none, currentOutfit := none,
          scenario := "   ", shoppingTip := none, weather := none }
      = ({ hasOutfit := false, loading := false, error := none, currentOutfit := none,
           scenario := "   ", shoppingTip := none, weather := none }, []) :=
  c9_blank_scenario_noop (some "U1") (Except.error "network down") _ (Or.inr (by decide))
